import Mathlib

/-!
Shallow embedding of the patch-extraction core of
`src/datasets/base_patch_dataset.py`: the 2D grid patcher
(`Grid2DPatchDataset`), the axis-aligned membership query
(`_get_box_index_arr`), the multi-cloud aggregator
(`BaseMultiCloudPatchDataset`), and the k-nearest-neighbour query of the
proximity index.  Point coordinates are embedded as rationals; tensors of
point indices become lists of naturals; Python's implicit `None` fall-through
becomes `Option`; error-reporting contracts become `Except`.
-/

namespace PatchBench

/-- A 3D point, one row of the `pos` tensor. -/
structure Point3 where
  x : ℚ
  y : ℚ
  z : ℚ
deriving DecidableEq, Repr, Inhabited

/-- The error kinds of the spec's §7. -/
inductive PatchError where
  | indexOutOfRange
  | insufficientPoints
  | invalidConfiguration
  | emptyInput
deriving DecidableEq, Repr

/-- `self.pos.min(dim=0)` of `get_bounding_box`: componentwise minimum over
all points (meaningful for a non-empty cloud, as in the source where an empty
tensor would error). -/
def minPointOf (pos : List Point3) : Point3 :=
  pos.foldl (fun acc p => ⟨min acc.x p.x, min acc.y p.y, min acc.z p.z⟩) pos.headI

/-- `self.pos.max(dim=0)` of `get_bounding_box`: componentwise maximum. -/
def maxPointOf (pos : List Point3) : Point3 :=
  pos.foldl (fun acc p => ⟨max acc.x p.x, max acc.y p.y, max acc.z p.z⟩) pos.headI

/-- The state built by `Grid2DPatchDataset.__init__`. -/
structure Grid2DPatchDataset where
  pos : List Point3
  blockXDist : ℚ
  blockYDist : ℚ
  contextDist : ℚ
  strideXDist : ℚ
  strideYDist : ℚ
  minPoint : Point3
  maxPoint : Point3
  numBlocksX : ℤ
  numBlocksY : ℤ
deriving Repr

/-- `Grid2DPatchDataset.__init__(data, blockX, blockY, contextDist)`:
strides are `block - contextDist`, the bounding box is computed once, and
`numBlocks` per axis is `math.ceil(cloudSize / stride)` — with no validation
of the configuration and no clamping of the block counts. -/
def grid2D_init (pos : List Point3) (blockX blockY contextDist : ℚ) :
    Grid2DPatchDataset :=
  let strideX := blockX - contextDist
  let strideY := blockY - contextDist
  let minPoint := minPointOf pos
  let maxPoint := maxPointOf pos
  let cloudSizeX := maxPoint.x - minPoint.x
  let cloudSizeY := maxPoint.y - minPoint.y
  { pos := pos
    blockXDist := blockX
    blockYDist := blockY
    contextDist := contextDist
    strideXDist := strideX
    strideYDist := strideY
    minPoint := minPoint
    maxPoint := maxPoint
    numBlocksX := ⌈cloudSizeX / strideX⌉
    numBlocksY := ⌈cloudSizeY / strideY⌉ }

/-- `Grid2DPatchDataset.__len__`. -/
def grid_len (g : Grid2DPatchDataset) : ℤ := g.numBlocksX * g.numBlocksY

/-- `Grid2DPatchDataset._get_bounds_for_idx`: Python's
`divmod(idx, numBlocksX)` is floor division with floor-style remainder,
i.e. `Int.fdiv` / `Int.fmod`. -/
def get_bounds_for_idx (g : Grid2DPatchDataset) (idx : ℤ) :
    (ℚ × ℚ) × (ℚ × ℚ) :=
  let yIndex := Int.fdiv idx g.numBlocksX
  let xIndex := Int.fmod idx g.numBlocksX
  let blockMinY := g.minPoint.y + (yIndex : ℚ) * g.strideYDist
  let blockMinX := g.minPoint.x + (xIndex : ℚ) * g.strideXDist
  let blockMaxY := min (blockMinY + g.blockYDist) g.maxPoint.y
  let blockMaxX := min (blockMinX + g.blockXDist) g.maxPoint.x
  ((blockMinX, blockMinY), (blockMaxX, blockMaxY))

/-- `Grid2DPatchDataset._get_inner_bounds_for_idx`: outer bounds shrunk by
`contextDist` on every side. -/
def get_inner_bounds_for_idx (g : Grid2DPatchDataset) (idx : ℤ) :
    (ℚ × ℚ) × (ℚ × ℚ) :=
  let b := get_bounds_for_idx g idx
  ((b.1.1 + g.contextDist, b.1.2 + g.contextDist),
   (b.2.1 - g.contextDist, b.2.2 - g.contextDist))

/-- `Grid2DPatchDataset._get_box_index_arr`: the indices `i` with
`xyMin.x ≤ pos[i].x ≤ xyMax.x` and `xyMin.y ≤ pos[i].y ≤ xyMax.y`
(`torch.arange(N)[mask]`), in increasing index order. -/
def get_box_index_arr (pos : List Point3) (xyMin xyMax : ℚ × ℚ) : List ℕ :=
  (List.range pos.length).filter fun i =>
    let p := pos.getD i default
    decide (xyMin.1 ≤ p.x) && decide (p.x ≤ xyMax.1) &&
      decide (xyMin.2 ≤ p.y) && decide (p.y ≤ xyMax.2)

/-- `Grid2DPatchDataset._get_block_index_arr`. -/
def get_block_index_arr (g : Grid2DPatchDataset) (idx : ℤ) : List ℕ :=
  get_box_index_arr g.pos (get_bounds_for_idx g idx).1 (get_bounds_for_idx g idx).2

/-- `Grid2DPatchDataset._get_inner_block_index_arr`. -/
def get_inner_block_index_arr (g : Grid2DPatchDataset) (idx : ℤ) : List ℕ :=
  get_box_index_arr g.pos (get_inner_bounds_for_idx g idx).1
    (get_inner_bounds_for_idx g idx).2

/-- `BaseMultiCloudPatchDataset.__len__`: the sum of the sources' lengths.
Each patch source is embedded as the list of its patches. -/
def multi_len {α : Type} (sources : List (List α)) : ℕ :=
  (sources.map List.length).sum

/-- The loop body of `BaseMultiCloudPatchDataset.__getitem__`, carrying the
running offset `i`; the Python loop that exhausts all sources without
returning yields `None`. -/
def multi_getitem_go {α : Type} : List (List α) → ℕ → ℕ → Option α
  | [], _, _ => none
  | pds :: rest, idx, i =>
      if idx < i + pds.length then pds.get? (idx - i)
      else multi_getitem_go rest idx (i + pds.length)

/-- `BaseMultiCloudPatchDataset.__getitem__(idx)`, offset starting at 0. -/
def multi_getitem {α : Type} (sources : List (List α)) (idx : ℕ) : Option α :=
  multi_getitem_go sources idx 0

/-- Offset of source `j`: the sum of the lengths of the sources before it. -/
def offAt {α : Type} : List (List α) → ℕ → ℕ
  | _, 0 => 0
  | [], _ + 1 => 0
  | pds :: rest, j + 1 => pds.length + offAt rest j

/-- Squared 3D Euclidean distance between two points. -/
def sqDist (p q : Point3) : ℚ :=
  (p.x - q.x) ^ 2 + (p.y - q.y) ^ 2 + (p.z - q.z) ^ 2

/-- Ordering of `(index, squaredDistance)` pairs used by the k-NN query:
increasing squared distance, ties broken by increasing original index. -/
def knnLE (a b : ℕ × ℚ) : Prop :=
  a.2 < b.2 ∨ (a.2 = b.2 ∧ a.1 ≤ b.1)

instance : DecidableRel knnLE := fun a b => by
  unfold knnLE; infer_instance

instance : IsTotal (ℕ × ℚ) knnLE where
  total a b := by
    unfold knnLE
    rcases lt_trichotomy a.2 b.2 with h | h | h
    · exact Or.inl (Or.inl h)
    · rcases Nat.le_total a.1 b.1 with h' | h'
      · exact Or.inl (Or.inr ⟨h, h'⟩)
      · exact Or.inr (Or.inr ⟨h.symm, h'⟩)
    · exact Or.inr (Or.inl h)

instance : IsTrans (ℕ × ℚ) knnLE where
  trans a b c hab hbc := by
    unfold knnLE at *
    rcases hab with h1 | ⟨h1, h1'⟩ <;> rcases hbc with h2 | ⟨h2, h2'⟩
    · exact Or.inl (h1.trans h2)
    · exact Or.inl (h2 ▸ h1)
    · exact Or.inl (h1 ▸ h2)
    · exact Or.inr ⟨h1.trans h2, h1'.trans h2'⟩

/-- Every point index of the cloud paired with its squared distance to the
query center. -/
def knnPairs (pos : List Point3) (center : Point3) : List (ℕ × ℚ) :=
  (List.range pos.length).map fun i => (i, sqDist (pos.getD i default) center)

/-- Modelled from the spec: the concrete proximity index
(`build_kdtree` in `utils/pointcloud_utils`, and the KD-tree it wraps) is not
under `src/`; the spec's §4.4 contract for `knnQuery(center, k)` is: fail with
`InsufficientPointsError` when `k` exceeds the cloud size, otherwise return
the `k` closest points to `center` as `(index, squaredDistance)` pairs,
ordered by increasing distance with ties broken by increasing index. -/
def knn_query (pos : List Point3) (center : Point3) (k : ℕ) :
    Except PatchError (List (ℕ × ℚ)) :=
  if pos.length < k then .error .insufficientPoints
  else .ok ((List.insertionSort knnLE (knnPairs pos center)).take k)

/-! ## Helper lemmas -/

lemma mem_box_index {pos : List Point3} {xyMin xyMax : ℚ × ℚ} {i : ℕ} :
    i ∈ get_box_index_arr pos xyMin xyMax ↔
      i < pos.length ∧
        xyMin.1 ≤ (pos.getD i default).x ∧ (pos.getD i default).x ≤ xyMax.1 ∧
        xyMin.2 ≤ (pos.getD i default).y ∧ (pos.getD i default).y ≤ xyMax.2 := by
  simp [get_box_index_arr, List.mem_filter, List.mem_range, and_assoc]

lemma sorted_box_index (pos : List Point3) (xyMin xyMax : ℚ × ℚ) :
    List.Sorted (· < ·) (get_box_index_arr pos xyMin xyMax) :=
  (List.sorted_lt_range pos.length).filter _

lemma nodup_box_index (pos : List Point3) (xyMin xyMax : ℚ × ℚ) :
    (get_box_index_arr pos xyMin xyMax).Nodup :=
  (List.nodup_range pos.length).filter _

lemma multi_getitem_go_none {α : Type} :
    ∀ (sources : List (List α)) (idx i : ℕ),
      i + multi_len sources ≤ idx → multi_getitem_go sources idx i = none
  | [], _, _, _ => rfl
  | pds :: rest, idx, i, h => by
      have hlen : multi_len (pds :: rest) = pds.length + multi_len rest := by
        simp [multi_len]
      rw [multi_getitem_go, if_neg (by omega)]
      exact multi_getitem_go_none rest idx (i + pds.length) (by omega)

/-! ## C5: axis-aligned membership query -/

/-- C5: the membership query returns exactly the indices whose x and y
coordinates lie within the bounds, inclusively on both ends; the z coordinate
places no constraint. -/
theorem box_membership_spec (pos : List Point3) (xyMin xyMax : ℚ × ℚ) (i : ℕ) :
    i ∈ get_box_index_arr pos xyMin xyMax ↔
      i < pos.length ∧
        xyMin.1 ≤ (pos.getD i default).x ∧ (pos.getD i default).x ≤ xyMax.1 ∧
        xyMin.2 ≤ (pos.getD i default).y ∧ (pos.getD i default).y ≤ xyMax.2 :=
  mem_box_index

/-! ## C10: invariants of the returned index sequence -/

/-- C10: the index sequence returned by the membership query is strictly
increasing (hence duplicate-free) with every element a valid point index, and
two queries select the same points exactly when they return equal
sequences. -/
theorem box_index_arr_invariants (pos : List Point3) (xyMin xyMax m2 M2 : ℚ × ℚ) :
    List.Sorted (· < ·) (get_box_index_arr pos xyMin xyMax) ∧
    (get_box_index_arr pos xyMin xyMax).Nodup ∧
    (∀ i ∈ get_box_index_arr pos xyMin xyMax, i < pos.length) ∧
    ((∀ i, i ∈ get_box_index_arr pos xyMin xyMax ↔ i ∈ get_box_index_arr pos m2 M2) ↔
      get_box_index_arr pos xyMin xyMax = get_box_index_arr pos m2 M2) := by
  refine ⟨sorted_box_index pos xyMin xyMax, nodup_box_index pos xyMin xyMax,
    fun i hi => (mem_box_index.1 hi).1, ?_, ?_⟩
  · intro hmem
    haveI : IsAntisymm ℕ (· < ·) :=
      ⟨fun a b h1 h2 => absurd h2 (Nat.lt_asymm h1)⟩
    have hperm : List.Perm (get_box_index_arr pos xyMin xyMax) (get_box_index_arr pos m2 M2) :=
      (List.perm_ext_iff_of_nodup (nodup_box_index pos xyMin xyMax)
        (nodup_box_index pos m2 M2)).2 hmem
    exact List.eq_of_perm_of_sorted hperm (sorted_box_index pos xyMin xyMax)
      (sorted_box_index pos m2 M2)
  · intro heq i
    rw [heq]

/-! ## C1: aggregator lookup past the end returns None, it does not report -/

/-- C1 (code divergence): when `idx` is at least the sum of the sources'
lengths, `BaseMultiCloudPatchDataset.__getitem__`'s scan falls through every
source and returns Python's implicit `None` — it does not raise an
index-out-of-range error. -/
theorem multi_getitem_out_of_range_returns_none {α : Type}
    (sources : List (List α)) (idx : ℕ) (h : multi_len sources ≤ idx) :
    multi_getitem sources idx = none :=
  multi_getitem_go_none sources idx 0 (by omega)

/-- Witness for C1 at the spec's own example: lengths 2, 0, 3 and index 5. -/
theorem multi_getitem_out_of_range_witness :
    multi_len [[0, 1], ([] : List ℕ), [2, 3, 4]] ≤ 5 ∧
      multi_getitem [[0, 1], ([] : List ℕ), [2, 3, 4]] 5 = none :=
  ⟨by decide, multi_getitem_out_of_range_returns_none _ 5 (by decide)⟩

/-! ## Shared concrete example objects -/

/-- A two-point cloud with bounding box (0,0,0)–(3,4,5). -/
def cloud2 : List Point3 := [⟨0, 0, 0⟩, ⟨3, 4, 5⟩]

/-- A grid over `cloud2` with blocks 2×2 and context margin 1
(strides 1, so 3 columns and 4 rows of blocks). -/
def grid2 : Grid2DPatchDataset := grid2D_init cloud2 2 2 1

/-- A single-point cloud: its bounding box has zero extent in every axis. -/
def cloud1 : List Point3 := [⟨0, 0, 0⟩]

lemma grid2_numBlocksX : grid2.numBlocksX = 3 := by
  simp [grid2, cloud2, grid2D_init, minPointOf, maxPointOf]
  norm_num

lemma grid2_numBlocksY : grid2.numBlocksY = 4 := by
  simp [grid2, cloud2, grid2D_init, minPointOf, maxPointOf]
  norm_num

lemma grid2_len : grid_len grid2 = 12 := by
  rw [grid_len, grid2_numBlocksX, grid2_numBlocksY]
  decide

lemma cloud1_numBlocks : (grid2D_init cloud1 2 2 1).numBlocksX = 0 ∧
    (grid2D_init cloud1 2 2 1).numBlocksY = 0 := by
  constructor <;> simp [cloud1, grid2D_init, minPointOf, maxPointOf]

/-! ## C6: no validation of the grid configuration -/

/-- C6 (code divergence): constructing the grid with
`contextDist = 2 > 1 = blockX = blockY` (non-positive strides) is not
rejected: `__init__` silently produces negative strides, negative per-axis
block counts, and a bogus positive length of 12 — no
`InvalidConfigurationError` exists anywhere in the code. -/
theorem grid_invalid_config_not_rejected :
    (grid2D_init [⟨0, 0, 0⟩, ⟨3, 4, 0⟩] 1 1 2).strideXDist = -1 ∧
    (grid2D_init [⟨0, 0, 0⟩, ⟨3, 4, 0⟩] 1 1 2).strideYDist = -1 ∧
    (grid2D_init [⟨0, 0, 0⟩, ⟨3, 4, 0⟩] 1 1 2).numBlocksX = -3 ∧
    (grid2D_init [⟨0, 0, 0⟩, ⟨3, 4, 0⟩] 1 1 2).numBlocksY = -4 ∧
    grid_len (grid2D_init [⟨0, 0, 0⟩, ⟨3, 4, 0⟩] 1 1 2) = 12 := by
  refine ⟨by simp [grid2D_init]; norm_num, by simp [grid2D_init]; norm_num, ?_, ?_, ?_⟩
  · simp [grid2D_init, minPointOf, maxPointOf]
    norm_num
    rw [show (-3 : ℚ) = ((-3 : ℤ) : ℚ) by norm_num, Int.ceil_intCast]
  · simp [grid2D_init, minPointOf, maxPointOf]
    norm_num
    rw [show (-4 : ℚ) = ((-4 : ℤ) : ℚ) by norm_num, Int.ceil_intCast]
  · simp [grid_len, grid2D_init, minPointOf, maxPointOf]
    norm_num
    rw [show (-3 : ℚ) = ((-3 : ℤ) : ℚ) by norm_num,
      show (-4 : ℚ) = ((-4 : ℤ) : ℚ) by norm_num,
      Int.ceil_intCast, Int.ceil_intCast]
    decide

/-! ## C3: block counts are not clamped to a minimum of 1 -/

/-- C3 counterexample: over the non-empty single-point cloud `cloud1` with
the valid configuration (2, 2, 1), both per-axis block counts are 0 and the
grid length is 0 — not clamped to a minimum of 1, and not of length ≥ 1. -/
theorem grid_numblocks_no_clamp_counterexample :
    (grid2D_init cloud1 2 2 1).numBlocksX = 0 ∧
    (grid2D_init cloud1 2 2 1).numBlocksY = 0 ∧
    grid_len (grid2D_init cloud1 2 2 1) = 0 := by
  refine ⟨cloud1_numBlocks.1, cloud1_numBlocks.2, ?_⟩
  rw [grid_len, cloud1_numBlocks.1, cloud1_numBlocks.2]
  decide

/-- C3 amended: the per-axis block counts are `ceil(cloudSize / stride)` with
no clamping, so a zero-extent axis yields zero blocks along it and a
zero-length grid. -/
theorem grid_numblocks_formula (pos : List Point3) (blockX blockY contextDist : ℚ)
    (hsx : blockX - contextDist ≠ 0) (hsy : blockY - contextDist ≠ 0) :
    (grid2D_init pos blockX blockY contextDist).numBlocksX =
      ⌈((maxPointOf pos).x - (minPointOf pos).x) / (blockX - contextDist)⌉ ∧
    (grid2D_init pos blockX blockY contextDist).numBlocksY =
      ⌈((maxPointOf pos).y - (minPointOf pos).y) / (blockY - contextDist)⌉ ∧
    ((maxPointOf pos).x = (minPointOf pos).x →
      (grid2D_init pos blockX blockY contextDist).numBlocksX = 0 ∧
      grid_len (grid2D_init pos blockX blockY contextDist) = 0) := by
  refine ⟨rfl, rfl, fun h => ?_⟩
  have h0 : (grid2D_init pos blockX blockY contextDist).numBlocksX = 0 := by
    simp [grid2D_init, h]
  exact ⟨h0, by rw [grid_len, h0, zero_mul]⟩

/-- Witness for C3's amended statement at the single-point cloud. -/
theorem grid_numblocks_formula_witness :
    ((2 : ℚ) - 1 ≠ 0) ∧
    ((grid2D_init cloud1 2 2 1).numBlocksX =
        ⌈((maxPointOf cloud1).x - (minPointOf cloud1).x) / ((2 : ℚ) - 1)⌉ ∧
      (grid2D_init cloud1 2 2 1).numBlocksY =
        ⌈((maxPointOf cloud1).y - (minPointOf cloud1).y) / ((2 : ℚ) - 1)⌉ ∧
      ((maxPointOf cloud1).x = (minPointOf cloud1).x →
        (grid2D_init cloud1 2 2 1).numBlocksX = 0 ∧
        grid_len (grid2D_init cloud1 2 2 1) = 0)) :=
  ⟨by norm_num, grid_numblocks_formula cloud1 2 2 1 (by norm_num) (by norm_num)⟩

/-! ## C2: grid coverage -/

/-- C2 counterexample: the single-point cloud `cloud1` is non-empty and the
configuration (2, 2, 1) is valid, yet no block of the resulting grid contains
point 0 — the grid has zero blocks, so the union of all outer sets is empty,
not the full index set. -/
theorem grid_coverage_counterexample :
    ¬ ∃ b : ℤ, 0 ≤ b ∧ b < grid_len (grid2D_init cloud1 2 2 1) ∧
      0 ∈ get_block_index_arr (grid2D_init cloud1 2 2 1) b := by
  rintro ⟨b, hb0, hblt, -⟩
  rw [grid_len, cloud1_numBlocks.1, cloud1_numBlocks.2] at hblt
  omega

/-! ## C4: outer bounds via row-major divmod -/

/-- C4: for a block index in range (with at least one grid column), the outer
bounds are obtained by row-major divmod — `row = idx / numBlocksX`,
`col = idx % numBlocksX` — with `blockMin = minPoint + (col, row) * stride`
and `blockMax` the block extent clamped to `maxPoint`. -/
theorem grid_bounds_divmod_formula (g : Grid2DPatchDataset) (idx : ℤ)
    (h0 : 0 ≤ idx) (hlt : idx < grid_len g) (hX : 0 < g.numBlocksX) :
    get_bounds_for_idx g idx =
      ((g.minPoint.x + ((idx % g.numBlocksX : ℤ) : ℚ) * g.strideXDist,
        g.minPoint.y + ((idx / g.numBlocksX : ℤ) : ℚ) * g.strideYDist),
       (min (g.minPoint.x + ((idx % g.numBlocksX : ℤ) : ℚ) * g.strideXDist
            + g.blockXDist) g.maxPoint.x,
        min (g.minPoint.y + ((idx / g.numBlocksX : ℤ) : ℚ) * g.strideYDist
            + g.blockYDist) g.maxPoint.y)) := by
  unfold get_bounds_for_idx
  rw [Int.fdiv_eq_ediv _ hX.le, Int.fmod_eq_emod _ hX.le]

/-- Witness for C4 at `grid2` and block index 5 (row 1, column 2). -/
theorem grid_bounds_divmod_formula_witness :
    (0 : ℤ) ≤ 5 ∧ (5 : ℤ) < grid_len grid2 ∧ 0 < grid2.numBlocksX ∧
    get_bounds_for_idx grid2 5 =
      ((grid2.minPoint.x + (((5 : ℤ) % grid2.numBlocksX : ℤ) : ℚ) * grid2.strideXDist,
        grid2.minPoint.y + (((5 : ℤ) / grid2.numBlocksX : ℤ) : ℚ) * grid2.strideYDist),
       (min (grid2.minPoint.x + (((5 : ℤ) % grid2.numBlocksX : ℤ) : ℚ) * grid2.strideXDist
            + grid2.blockXDist) grid2.maxPoint.x,
        min (grid2.minPoint.y + (((5 : ℤ) / grid2.numBlocksX : ℤ) : ℚ) * grid2.strideYDist
            + grid2.blockYDist) grid2.maxPoint.y)) := by
  have h2 : (5 : ℤ) < grid_len grid2 := by rw [grid2_len]; decide
  have h3 : 0 < grid2.numBlocksX := by rw [grid2_numBlocksX]; decide
  exact ⟨by decide, h2, h3, grid_bounds_divmod_formula grid2 5 (by decide) h2 h3⟩

/-! ## C9: inner point sets are contained in outer point sets -/

/-- C9: with a non-negative context margin, every point of a block's inner
set (membership over the bounds shrunk by `contextDist` on every side) also
lies in the block's outer set; and when the shrunk bounds are inverted on
either axis the inner set is empty rather than an error. -/
theorem inner_subset_outer (g : Grid2DPatchDataset) (idx : ℤ)
    (hcd : 0 ≤ g.contextDist) :
    (∀ i, i ∈ get_inner_block_index_arr g idx → i ∈ get_block_index_arr g idx) ∧
    ((get_inner_bounds_for_idx g idx).2.1 < (get_inner_bounds_for_idx g idx).1.1 ∨
      (get_inner_bounds_for_idx g idx).2.2 < (get_inner_bounds_for_idx g idx).1.2 →
      get_inner_block_index_arr g idx = []) := by
  constructor
  · intro i hi
    rw [get_inner_block_index_arr, mem_box_index] at hi
    rw [get_block_index_arr, mem_box_index]
    obtain ⟨h1, h2, h3, h4, h5⟩ := hi
    simp only [get_inner_bounds_for_idx] at h2 h3 h4 h5
    exact ⟨h1, by linarith, by linarith, by linarith, by linarith⟩
  · intro hlt
    rw [get_inner_block_index_arr, get_box_index_arr, List.filter_eq_nil_iff]
    intro a _
    simp only [Bool.and_eq_true, decide_eq_true_eq]
    rintro ⟨⟨⟨hc1, hc2⟩, hc3⟩, hc4⟩
    rcases hlt with h | h
    · exact absurd (le_trans hc1 hc2) (not_le.2 h)
    · exact absurd (le_trans hc3 hc4) (not_le.2 h)

/-- Witness for C9 at `grid2` and block index 0. -/
theorem inner_subset_outer_witness :
    (0 : ℚ) ≤ grid2.contextDist ∧
    ((∀ i, i ∈ get_inner_block_index_arr grid2 0 → i ∈ get_block_index_arr grid2 0) ∧
     ((get_inner_bounds_for_idx grid2 0).2.1 < (get_inner_bounds_for_idx grid2 0).1.1 ∨
       (get_inner_bounds_for_idx grid2 0).2.2 < (get_inner_bounds_for_idx grid2 0).1.2 →
       get_inner_block_index_arr grid2 0 = [])) :=
  ⟨by norm_num [grid2, cloud2, grid2D_init],
    inner_subset_outer grid2 0 (by norm_num [grid2, cloud2, grid2D_init])⟩

/-! ## C8: aggregator linearity -/

lemma offAt_nil {α : Type} (j : ℕ) : offAt ([] : List (List α)) j = 0 := by
  cases j <;> rfl

lemma offAt_succ {α : Type} :
    ∀ (sources : List (List α)) (j : ℕ) (hj : j < sources.length),
      offAt sources (j + 1) = offAt sources j + (sources.get ⟨j, hj⟩).length
  | pds :: rest, 0, _ => by simp [offAt]
  | pds :: rest, j + 1, hj => by
      have ih := offAt_succ rest j (by simpa using Nat.lt_of_succ_lt_succ hj)
      show pds.length + offAt rest (j + 1) = pds.length + offAt rest j + _
      rw [ih, List.get_cons_succ, Nat.add_assoc]

lemma offAt_mono {α : Type} :
    ∀ (sources : List (List α)) {j k : ℕ}, j ≤ k →
      offAt sources j ≤ offAt sources k
  | [], j, k, _ => by rw [offAt_nil, offAt_nil]
  | _ :: _, 0, _, _ => Nat.zero_le _
  | pds :: rest, j + 1, k + 1, h => by
      show pds.length + offAt rest j ≤ pds.length + offAt rest k
      exact Nat.add_le_add_left (offAt_mono rest (Nat.le_of_succ_le_succ h)) _

lemma multi_getitem_go_at {α : Type} :
    ∀ (sources : List (List α)) (j : ℕ) (hj : j < sources.length) (idx i : ℕ),
      i + offAt sources j ≤ idx →
      idx < i + offAt sources j + (sources.get ⟨j, hj⟩).length →
      multi_getitem_go sources idx i =
        (sources.get ⟨j, hj⟩).get? (idx - i - offAt sources j)
  | pds :: rest, 0, _, idx, i, h1, h2 => by
      have h0 : offAt (pds :: rest) 0 = 0 := rfl
      rw [h0] at h1 h2
      simp at h2
      rw [multi_getitem_go, if_pos (by omega)]
      simp [h0]
  | pds :: rest, j + 1, hj, idx, i, h1, h2 => by
      have hoff : offAt (pds :: rest) (j + 1) = pds.length + offAt rest j := rfl
      rw [hoff] at h1 h2
      rw [multi_getitem_go, if_neg (by omega)]
      have hj' : j < rest.length := by simpa using Nat.lt_of_succ_lt_succ hj
      have ih := multi_getitem_go_at rest j hj' idx (i + pds.length)
        (by omega) (by rw [List.get_cons_succ] at h2; omega)
      rw [ih, List.get_cons_succ]
      congr 1
      omega

lemma exists_source {α : Type} :
    ∀ (sources : List (List α)) (idx : ℕ), idx < multi_len sources →
      ∃ j, ∃ hj : j < sources.length,
        offAt sources j ≤ idx ∧
        idx < offAt sources j + (sources.get ⟨j, hj⟩).length
  | [], _, h => absurd h (by simp [multi_len])
  | pds :: rest, idx, h => by
      by_cases hc : idx < pds.length
      · exact ⟨0, by simp, Nat.zero_le _, by simpa [offAt] using hc⟩
      · have hrest : idx - pds.length < multi_len rest := by
          simp only [multi_len, List.map_cons, List.sum_cons] at h
          simp only [multi_len]
          omega
        obtain ⟨j, hj, ha, hb⟩ := exists_source rest (idx - pds.length) hrest
        refine ⟨j + 1, by simpa using Nat.succ_lt_succ hj, ?_, ?_⟩
        · show pds.length + offAt rest j ≤ idx
          omega
        · show idx < pds.length + offAt rest j + ((pds :: rest).get ⟨j + 1, _⟩).length
          rw [List.get_cons_succ]
          omega

/-- C8: the aggregator's length is the sum of the sources' lengths, and a
global index within range resolves to the unique source `j` whose cumulative
offset interval contains it, returning that source's patch at
`idx - offset j` — zero-length sources being skipped over. -/
theorem multi_aggregator_linearity {α : Type} (sources : List (List α)) (idx : ℕ)
    (h : idx < multi_len sources) :
    multi_len sources = (sources.map List.length).sum ∧
    ∃ j, ∃ hj : j < sources.length,
      offAt sources j ≤ idx ∧
      idx < offAt sources j + (sources.get ⟨j, hj⟩).length ∧
      multi_getitem sources idx = (sources.get ⟨j, hj⟩).get? (idx - offAt sources j) ∧
      ∀ j', ∀ hj' : j' < sources.length,
        offAt sources j' ≤ idx →
        idx < offAt sources j' + (sources.get ⟨j', hj'⟩).length → j' = j := by
  refine ⟨rfl, ?_⟩
  obtain ⟨j, hj, h1, h2⟩ := exists_source sources idx h
  refine ⟨j, hj, h1, h2, ?_, ?_⟩
  · have hgo := multi_getitem_go_at sources j hj idx 0 (by omega) (by omega)
    rw [multi_getitem, hgo]
    simp
  · intro j' hj' ha hb
    rcases lt_trichotomy j' j with hlt | heq | hgt
    · exfalso
      have hs := offAt_succ sources j' hj'
      have hm := offAt_mono sources (show j' + 1 ≤ j from hlt)
      omega
    · exact heq
    · exfalso
      have hs := offAt_succ sources j hj
      have hm := offAt_mono sources (show j + 1 ≤ j' from hgt)
      omega

/-- The spec's aggregator example: three sources of lengths 2, 0 and 3. -/
def srcs3 : List (List ℕ) := [[0, 1], [], [2, 3, 4]]

/-- Witness for C8 at sources of lengths 2, 0, 3 and global index 3, which
resolves past the zero-length source into the third source. -/
theorem multi_aggregator_linearity_witness :
    3 < multi_len srcs3 ∧
    (multi_len srcs3 = (srcs3.map List.length).sum ∧
      ∃ j, ∃ hj : j < srcs3.length,
        offAt srcs3 j ≤ 3 ∧
        3 < offAt srcs3 j + (srcs3.get ⟨j, hj⟩).length ∧
        multi_getitem srcs3 3 = (srcs3.get ⟨j, hj⟩).get? (3 - offAt srcs3 j) ∧
        ∀ j', ∀ hj' : j' < srcs3.length,
          offAt srcs3 j' ≤ 3 →
          3 < offAt srcs3 j' + (srcs3.get ⟨j', hj'⟩).length → j' = j) :=
  ⟨by decide, multi_aggregator_linearity srcs3 3 (by decide)⟩

/-! ## C2: grid coverage (amended) — helper lemmas -/

lemma foldl_min_le_init : ∀ (l : List ℚ) (a : ℚ), l.foldl min a ≤ a
  | [], a => le_refl a
  | b :: t, a => le_trans (foldl_min_le_init t (min a b)) (min_le_left a b)

lemma le_foldl_max_init : ∀ (l : List ℚ) (a : ℚ), a ≤ l.foldl max a
  | [], a => le_refl a
  | b :: t, a => le_trans (le_max_left a b) (le_foldl_max_init t (max a b))

lemma foldl_min_le_mem : ∀ (l : List ℚ) (a b : ℚ), b ∈ l → l.foldl min a ≤ b
  | [], _, _, hb => absurd hb (List.not_mem_nil _)
  | c :: t, a, b, hb => by
      rcases List.mem_cons.1 hb with rfl | hmem
      · exact le_trans (foldl_min_le_init t (min a b)) (min_le_right a b)
      · exact foldl_min_le_mem t (min a c) b hmem

lemma le_foldl_max_mem : ∀ (l : List ℚ) (a b : ℚ), b ∈ l → b ≤ l.foldl max a
  | [], _, _, hb => absurd hb (List.not_mem_nil _)
  | c :: t, a, b, hb => by
      rcases List.mem_cons.1 hb with rfl | hmem
      · exact le_trans (le_max_right a b) (le_foldl_max_init t (max a b))
      · exact le_foldl_max_mem t (max a c) b hmem

lemma foldl_minPoint_x : ∀ (l : List Point3) (acc : Point3),
    (l.foldl (fun acc p => (⟨min acc.x p.x, min acc.y p.y, min acc.z p.z⟩ : Point3)) acc).x
      = (l.map Point3.x).foldl min acc.x
  | [], _ => rfl
  | _ :: t, _ => foldl_minPoint_x t _

lemma foldl_minPoint_y : ∀ (l : List Point3) (acc : Point3),
    (l.foldl (fun acc p => (⟨min acc.x p.x, min acc.y p.y, min acc.z p.z⟩ : Point3)) acc).y
      = (l.map Point3.y).foldl min acc.y
  | [], _ => rfl
  | _ :: t, _ => foldl_minPoint_y t _

lemma foldl_maxPoint_x : ∀ (l : List Point3) (acc : Point3),
    (l.foldl (fun acc p => (⟨max acc.x p.x, max acc.y p.y, max acc.z p.z⟩ : Point3)) acc).x
      = (l.map Point3.x).foldl max acc.x
  | [], _ => rfl
  | _ :: t, _ => foldl_maxPoint_x t _

lemma foldl_maxPoint_y : ∀ (l : List Point3) (acc : Point3),
    (l.foldl (fun acc p => (⟨max acc.x p.x, max acc.y p.y, max acc.z p.z⟩ : Point3)) acc).y
      = (l.map Point3.y).foldl max acc.y
  | [], _ => rfl
  | _ :: t, _ => foldl_maxPoint_y t _

lemma minPointOf_le_x {pos : List Point3} {p : Point3} (hp : p ∈ pos) :
    (minPointOf pos).x ≤ p.x := by
  rw [minPointOf, foldl_minPoint_x]
  exact foldl_min_le_mem _ _ _ (List.mem_map_of_mem Point3.x hp)

lemma minPointOf_le_y {pos : List Point3} {p : Point3} (hp : p ∈ pos) :
    (minPointOf pos).y ≤ p.y := by
  rw [minPointOf, foldl_minPoint_y]
  exact foldl_min_le_mem _ _ _ (List.mem_map_of_mem Point3.y hp)

lemma le_maxPointOf_x {pos : List Point3} {p : Point3} (hp : p ∈ pos) :
    p.x ≤ (maxPointOf pos).x := by
  rw [maxPointOf, foldl_maxPoint_x]
  exact le_foldl_max_mem _ _ _ (List.mem_map_of_mem Point3.x hp)

lemma le_maxPointOf_y {pos : List Point3} {p : Point3} (hp : p ∈ pos) :
    p.y ≤ (maxPointOf pos).y := by
  rw [maxPointOf, foldl_maxPoint_y]
  exact le_foldl_max_mem _ _ _ (List.mem_map_of_mem Point3.y hp)

lemma getD_mem {pos : List Point3} {i : ℕ} (h : i < pos.length) :
    pos.getD i default ∈ pos := by
  rw [List.getD_eq_getElem?_getD, List.getElem?_eq_getElem h]
  exact List.getElem_mem h

/-- Per-axis block choice: a coordinate offset `t` within a positive cloud
extent `S` lies in the column `c` whose origin `c·σ` is at most `t` and whose
block of width `B ≥ σ` reaches `t`. -/
lemma exists_block_1d (S σ B t : ℚ) (hσ : 0 < σ) (hσB : σ ≤ B)
    (ht0 : 0 ≤ t) (htS : t ≤ S) (hS : 0 < S) :
    ∃ c : ℤ, 0 ≤ c ∧ c < ⌈S / σ⌉ ∧ (c : ℚ) * σ ≤ t ∧ t ≤ (c : ℚ) * σ + B := by
  by_cases hcase : ⌊t / σ⌋ < ⌈S / σ⌉
  · refine ⟨⌊t / σ⌋, Int.floor_nonneg.2 (div_nonneg ht0 hσ.le), hcase, ?_, ?_⟩
    · have h1 : ((⌊t / σ⌋ : ℤ) : ℚ) ≤ t / σ := Int.floor_le _
      calc ((⌊t / σ⌋ : ℤ) : ℚ) * σ ≤ (t / σ) * σ :=
            mul_le_mul_of_nonneg_right h1 hσ.le
        _ = t := div_mul_cancel₀ t hσ.ne'
    · have h2 : t / σ < (⌊t / σ⌋ : ℚ) + 1 := Int.lt_floor_add_one _
      rw [div_lt_iff hσ] at h2
      nlinarith
  · push_neg at hcase
    have hn0 : 0 < ⌈S / σ⌉ := Int.ceil_pos.2 (div_pos hS hσ)
    have h1 : ((⌈S / σ⌉ : ℤ) : ℚ) ≤ t / σ :=
      le_trans (by exact_mod_cast hcase) (Int.floor_le _)
    have h1' : ((⌈S / σ⌉ : ℤ) : ℚ) * σ ≤ t := by
      rw [← le_div_iff hσ]
      exact h1
    have h2 : S ≤ ((⌈S / σ⌉ : ℤ) : ℚ) * σ := by
      rw [← div_le_iff hσ]
      exact Int.le_ceil _
    refine ⟨⌈S / σ⌉ - 1, by omega, by omega, ?_, ?_⟩
    · push_cast
      nlinarith
    · push_cast
      nlinarith

/-- Python's `divmod` recovers (row, col) from `row * n + col`. -/
lemma fdiv_fmod_block {r c n : ℤ} (hn : 0 < n) (hc0 : 0 ≤ c) (hcn : c < n) :
    Int.fdiv (r * n + c) n = r ∧ Int.fmod (r * n + c) n = c := by
  constructor
  · rw [Int.fdiv_eq_ediv _ hn.le, show r * n + c = c + n * r by ring,
      Int.add_mul_ediv_left c r hn.ne', Int.ediv_eq_zero_of_lt hc0 hcn, zero_add]
  · rw [Int.fmod_eq_emod _ hn.le, show r * n + c = c + n * r by ring,
      Int.add_mul_emod_self_left, Int.emod_eq_of_lt hc0 hcn]

/-- C2 amended: over a cloud with positive extent in both x and y, and a
valid configuration (0 ≤ contextMargin < blockWidth, blockHeight), every
point index belongs to the outer set of at least one in-range block — the
union of all outer sets is the full index set.  (The unamended claim fails
for non-empty zero-extent clouds, where the grid has zero blocks.) -/
theorem grid_coverage_union (pos : List Point3) (blockX blockY contextDist : ℚ)
    (hcd : 0 ≤ contextDist) (hbx : contextDist < blockX) (hby : contextDist < blockY)
    (hSx : (minPointOf pos).x < (maxPointOf pos).x)
    (hSy : (minPointOf pos).y < (maxPointOf pos).y)
    (i : ℕ) (hi : i < pos.length) :
    ∃ b : ℤ, 0 ≤ b ∧ b < grid_len (grid2D_init pos blockX blockY contextDist) ∧
      i ∈ get_block_index_arr (grid2D_init pos blockX blockY contextDist) b := by
  have hp : pos.getD i default ∈ pos := getD_mem hi
  have hminx : (minPointOf pos).x ≤ (pos.getD i default).x := minPointOf_le_x hp
  have hmaxx : (pos.getD i default).x ≤ (maxPointOf pos).x := le_maxPointOf_x hp
  have hminy : (minPointOf pos).y ≤ (pos.getD i default).y := minPointOf_le_y hp
  have hmaxy : (pos.getD i default).y ≤ (maxPointOf pos).y := le_maxPointOf_y hp
  have hσx : 0 < blockX - contextDist := by linarith
  have hσy : 0 < blockY - contextDist := by linarith
  obtain ⟨c, hc0, hcn, hcl, hcu⟩ :=
    exists_block_1d ((maxPointOf pos).x - (minPointOf pos).x) (blockX - contextDist)
      blockX ((pos.getD i default).x - (minPointOf pos).x)
      hσx (by linarith) (by linarith) (by linarith) (by linarith)
  obtain ⟨r, hr0, hrn, hrl, hru⟩ :=
    exists_block_1d ((maxPointOf pos).y - (minPointOf pos).y) (blockY - contextDist)
      blockY ((pos.getD i default).y - (minPointOf pos).y)
      hσy (by linarith) (by linarith) (by linarith) (by linarith)
  have hnx : (grid2D_init pos blockX blockY contextDist).numBlocksX
      = ⌈((maxPointOf pos).x - (minPointOf pos).x) / (blockX - contextDist)⌉ := rfl
  have hny : (grid2D_init pos blockX blockY contextDist).numBlocksY
      = ⌈((maxPointOf pos).y - (minPointOf pos).y) / (blockY - contextDist)⌉ := rfl
  rw [← hnx] at hcn
  rw [← hny] at hrn
  have hnXpos : 0 < (grid2D_init pos blockX blockY contextDist).numBlocksX := by omega
  refine ⟨r * (grid2D_init pos blockX blockY contextDist).numBlocksX + c, ?_, ?_, ?_⟩
  · have h1 : 0 ≤ r * (grid2D_init pos blockX blockY contextDist).numBlocksX :=
      mul_nonneg hr0 hnXpos.le
    omega
  · have h2 : (r + 1) * (grid2D_init pos blockX blockY contextDist).numBlocksX
        ≤ (grid2D_init pos blockX blockY contextDist).numBlocksY
          * (grid2D_init pos blockX blockY contextDist).numBlocksX :=
      mul_le_mul_of_nonneg_right (by omega) hnXpos.le
    rw [grid_len]
    nlinarith
  · have hdm := fdiv_fmod_block (r := r) (c := c)
      (n := (grid2D_init pos blockX blockY contextDist).numBlocksX) hnXpos hc0 hcn
    rw [get_block_index_arr, mem_box_index]
    have hfst : (get_bounds_for_idx (grid2D_init pos blockX blockY contextDist)
        (r * (grid2D_init pos blockX blockY contextDist).numBlocksX + c)).1
        = ((minPointOf pos).x + (c : ℚ) * (blockX - contextDist),
           (minPointOf pos).y + (r : ℚ) * (blockY - contextDist)) := by
      show ((grid2D_init pos blockX blockY contextDist).minPoint.x
          + ((Int.fmod _ _ : ℤ) : ℚ) * (grid2D_init pos blockX blockY contextDist).strideXDist,
        (grid2D_init pos blockX blockY contextDist).minPoint.y
          + ((Int.fdiv _ _ : ℤ) : ℚ) * (grid2D_init pos blockX blockY contextDist).strideYDist) = _
      rw [hdm.1, hdm.2]
      rfl
    have hsnd : (get_bounds_for_idx (grid2D_init pos blockX blockY contextDist)
        (r * (grid2D_init pos blockX blockY contextDist).numBlocksX + c)).2
        = (min ((minPointOf pos).x + (c : ℚ) * (blockX - contextDist) + blockX)
            (maxPointOf pos).x,
           min ((minPointOf pos).y + (r : ℚ) * (blockY - contextDist) + blockY)
            (maxPointOf pos).y) := by
      show (min ((grid2D_init pos blockX blockY contextDist).minPoint.x
          + ((Int.fmod _ _ : ℤ) : ℚ) * (grid2D_init pos blockX blockY contextDist).strideXDist
          + (grid2D_init pos blockX blockY contextDist).blockXDist)
            (grid2D_init pos blockX blockY contextDist).maxPoint.x,
        min ((grid2D_init pos blockX blockY contextDist).minPoint.y
          + ((Int.fdiv _ _ : ℤ) : ℚ) * (grid2D_init pos blockX blockY contextDist).strideYDist
          + (grid2D_init pos blockX blockY contextDist).blockYDist)
            (grid2D_init pos blockX blockY contextDist).maxPoint.y) = _
      rw [hdm.1, hdm.2]
      rfl
    have hgp : (grid2D_init pos blockX blockY contextDist).pos = pos := rfl
    rw [hfst, hsnd, hgp]
    dsimp only
    refine ⟨hi, by linarith, le_min (by linarith) hmaxx, by linarith,
      le_min (by linarith) hmaxy⟩

/-- Witness for C2's amended statement at `cloud2`, point index 1. -/
theorem grid_coverage_union_witness :
    (0 : ℚ) ≤ 1 ∧ (1 : ℚ) < 2 ∧
    (minPointOf cloud2).x < (maxPointOf cloud2).x ∧
    (minPointOf cloud2).y < (maxPointOf cloud2).y ∧
    1 < cloud2.length ∧
    (∃ b : ℤ, 0 ≤ b ∧ b < grid_len (grid2D_init cloud2 2 2 1) ∧
      1 ∈ get_block_index_arr (grid2D_init cloud2 2 2 1) b) := by
  have hx : (minPointOf cloud2).x < (maxPointOf cloud2).x := by
    norm_num [minPointOf, maxPointOf, cloud2]
  have hy : (minPointOf cloud2).y < (maxPointOf cloud2).y := by
    norm_num [minPointOf, maxPointOf, cloud2]
  have hlen : 1 < cloud2.length := by simp [cloud2]
  exact ⟨by norm_num, by norm_num, hx, hy, hlen,
    grid_coverage_union cloud2 2 2 1 (by norm_num) (by norm_num) (by norm_num)
      hx hy 1 hlen⟩

/-! ## C7: k-nearest-neighbour query contract -/

lemma knnPairs_length (pos : List Point3) (center : Point3) :
    (knnPairs pos center).length = pos.length := by
  simp [knnPairs]

lemma mem_knnPairs {pos : List Point3} {center : Point3} {e : ℕ × ℚ} :
    e ∈ knnPairs pos center ↔
      e.1 < pos.length ∧ e.2 = sqDist (pos.getD e.1 default) center := by
  obtain ⟨i, d⟩ := e
  simp only [knnPairs, List.mem_map, List.mem_range, Prod.mk.injEq]
  constructor
  · rintro ⟨j, hj, rfl, rfl⟩
    exact ⟨hj, rfl⟩
  · rintro ⟨h1, rfl⟩
    exact ⟨i, h1, rfl, rfl⟩

lemma knnPairs_fst_nodup (pos : List Point3) (center : Point3) :
    ((knnPairs pos center).map Prod.fst).Nodup := by
  have h : (knnPairs pos center).map Prod.fst = List.range pos.length := by
    simp only [knnPairs, List.map_map]
    have hfun : (Prod.fst ∘ fun i : ℕ => (i, sqDist (pos.getD i default) center))
        = fun i : ℕ => i := rfl
    rw [hfun]
    exact List.map_id _
  rw [h]
  exact List.nodup_range _

/-- C7: `knnQuery` fails with `InsufficientPointsError` when `k` exceeds the
cloud size (it does not truncate); otherwise it returns exactly `k`
`(index, squaredDistance)` pairs of valid indices, ordered by increasing
distance with ties broken by increasing index, such that every point left out
is at least as far (in that order) as every point returned. -/
theorem knn_query_contract (pos : List Point3) (center : Point3) (k : ℕ) :
    (pos.length < k → knn_query pos center k = .error .insufficientPoints) ∧
    (k ≤ pos.length → ∃ l, knn_query pos center k = .ok l ∧
      l.length = k ∧ List.Sorted knnLE l ∧ (l.map Prod.fst).Nodup ∧
      (∀ e ∈ l, e.1 < pos.length ∧ e.2 = sqDist (pos.getD e.1 default) center) ∧
      (∀ j, j < pos.length → (∀ e ∈ l, e.1 ≠ j) →
        ∀ e ∈ l, knnLE e (j, sqDist (pos.getD j default) center))) := by
  constructor
  · intro h
    rw [knn_query, if_pos h]
  · intro hk
    have hnotlt : ¬ pos.length < k := not_lt.2 hk
    have hperm : List.Perm (List.insertionSort knnLE (knnPairs pos center))
        (knnPairs pos center) := List.perm_insertionSort knnLE _
    have hsorted : List.Sorted knnLE (List.insertionSort knnLE (knnPairs pos center)) :=
      List.sorted_insertionSort knnLE _
    have hslen : (List.insertionSort knnLE (knnPairs pos center)).length = pos.length := by
      rw [hperm.length_eq, knnPairs_length]
    refine ⟨(List.insertionSort knnLE (knnPairs pos center)).take k, ?_, ?_, ?_, ?_, ?_, ?_⟩
    · rw [knn_query, if_neg hnotlt]
    · rw [List.length_take, hslen]
      omega
    · exact List.Pairwise.sublist (List.take_sublist _ _) hsorted
    · have hnodall : ((List.insertionSort knnLE (knnPairs pos center)).map Prod.fst).Nodup :=
        (hperm.map Prod.fst).nodup_iff.2 (knnPairs_fst_nodup pos center)
      rw [List.map_take]
      exact List.Nodup.sublist (List.take_sublist _ _) hnodall
    · intro e he
      exact mem_knnPairs.1 (hperm.mem_iff.1 (List.mem_of_mem_take he))
    · intro j hj hnot e he
      have hpjs : (j, sqDist (pos.getD j default) center)
          ∈ List.insertionSort knnLE (knnPairs pos center) :=
        hperm.mem_iff.2 (mem_knnPairs.2 ⟨hj, rfl⟩)
      have hsplit : (List.insertionSort knnLE (knnPairs pos center)).take k
          ++ (List.insertionSort knnLE (knnPairs pos center)).drop k
          = List.insertionSort knnLE (knnPairs pos center) := List.take_append_drop _ _
      have hpw : List.Pairwise knnLE ((List.insertionSort knnLE (knnPairs pos center)).take k
          ++ (List.insertionSort knnLE (knnPairs pos center)).drop k) := by
        rw [hsplit]
        exact hsorted
      have hmem : (j, sqDist (pos.getD j default) center)
          ∈ (List.insertionSort knnLE (knnPairs pos center)).take k
            ++ (List.insertionSort knnLE (knnPairs pos center)).drop k := by
        rw [hsplit]
        exact hpjs
      rcases List.mem_append.1 hmem with hin | hin
      · exact absurd rfl (hnot _ hin)
      · exact (List.pairwise_append.1 hpw).2.2 e he _ hin

end PatchBench
